import Mathlib

/-!
Shallow embedding of the cost-comparison engine of `Electricity_App/logic.py`
(`ElectricityCalculator`): tariff cost calculation, catalog comparison,
simplified plan cost, and item breakdown. Numbers are modelled as exact
rationals (`ℚ`) standing for Python floats; Python `int(x)` truncation toward
zero is modelled by `pyint`; raised exceptions are modelled by `Except`.
-/

/-- Python `int(x)` applied to a real number: truncation toward zero,
i.e. the floor for nonnegative arguments and the ceiling (written as
`-⌊-q⌋`) for negative ones. -/
def pyint (q : ℚ) : ℤ := if 0 ≤ q then ⌊q⌋ else -⌊-q⌋

/-- Reduction of an `Except` bind on a success, used to unfold the
monadic `do` blocks of the embedding. -/
theorem exceptBind_ok {α β ε : Type} (a : α) (f : α → Except ε β) :
    (Except.ok a >>= f) = f a := rfl

/-- Reduction of an `Except` bind on a failure. -/
theorem exceptBind_error {α β ε : Type} (e : ε) (f : α → Except ε β) :
    ((Except.error e : Except ε α) >>= f) = Except.error e := rfl

/-- One row of the tariff plan master table (`master_df`). -/
structure PlanRow where
  company_name : String
  contract_type : String
  base_unit_price : ℚ
  energy_unit_price : ℚ
  incentive_shot : ℚ
  incentive_running : ℚ
deriving DecidableEq, Repr

/-- The two exceptions `calculate_cost` can raise: no matching plan
(`ValueError` on empty lookup) and missing power factor for a
High Voltage contract. -/
inductive CalcError where
  | planNotFound
  | missingPowerFactor
deriving DecidableEq, Repr

/-- The dictionary returned by `calculate_cost`. -/
structure CostResult where
  monthly_costs : List ℚ
  annual_cost : ℚ
  monthly_base_charges : List ℚ
  monthly_energy_charges : List ℚ
  incentive_shot : ℚ
  incentive_running : ℚ
  net_annual_cost : ℚ
deriving DecidableEq, Repr

/-- The row filter used by the catalog lookup in `calculate_cost`:
`company_name` and `contract_type` both match. -/
def planPred (company_name contract_type : String) (row : PlanRow) : Bool :=
  row.company_name == company_name && row.contract_type == contract_type

/-- The per-month `for usage in monthly_usage` loop of `calculate_cost`:
returns the (base charge, energy charge, monthly cost) lists, or raises
when the contract is High Voltage and no power factor was supplied. -/
def monthLoop (contract_type : String) (base_unit_price energy_unit_price capacity : ℚ)
    (power_factor : Option ℚ) : List ℚ → Except CalcError (List ℚ × List ℚ × List ℚ)
  | [] => Except.ok ([], [], [])
  | usage :: rest => do
    let base_charge ←
      if contract_type = "High Voltage" then
        match power_factor with
        | none => Except.error CalcError.missingPowerFactor
        | some pf => Except.ok (base_unit_price * capacity * (185 - pf) / 100)
      else
        Except.ok (base_unit_price * capacity)
    let energy_charge := energy_unit_price * usage
    let rest3 ← monthLoop contract_type base_unit_price energy_unit_price capacity
      power_factor rest
    Except.ok (base_charge :: rest3.1, energy_charge :: rest3.2.1,
      (base_charge + energy_charge) :: rest3.2.2)

/-- Embedding of `ElectricityCalculator.calculate_cost`: look up the first catalog row
matching `(company_name, contract_type)`, then compute monthly base/energy
charges, annual cost, annualized running incentive and the net annual cost. -/
def calculate_cost (master_df : List PlanRow) (company_name contract_type : String)
    (capacity : ℚ) (monthly_usage : List ℚ) (power_factor : Option ℚ) :
    Except CalcError CostResult :=
  match master_df.find? (planPred company_name contract_type) with
  | none => Except.error CalcError.planNotFound
  | some plan => do
    let charges ← monthLoop contract_type plan.base_unit_price plan.energy_unit_price
      capacity power_factor monthly_usage
    let annual_cost := charges.2.2.sum
    let annual_running_incentive := plan.incentive_running * 12
    Except.ok {
      monthly_costs := charges.2.2
      annual_cost := annual_cost
      monthly_base_charges := charges.1
      monthly_energy_charges := charges.2.1
      incentive_shot := plan.incentive_shot
      incentive_running := annual_running_incentive
      net_annual_cost := annual_cost - plan.incentive_shot - annual_running_incentive
    }

/-- One element of the list returned by `get_comparison`. -/
structure ComparisonEntry where
  company_name : String
  annual_cost : ℚ
  net_annual_cost : ℚ
  incentive_shot : ℚ
  incentive_running : ℚ
  monthly_costs : List ℚ
  monthly_base_charges : List ℚ
  monthly_energy_charges : List ℚ
deriving DecidableEq, Repr

/-- The dictionary appended per plan inside `get_comparison`. -/
def toEntry (company : String) (r : CostResult) : ComparisonEntry :=
  { company_name := company
    annual_cost := r.annual_cost
    net_annual_cost := r.net_annual_cost
    incentive_shot := r.incentive_shot
    incentive_running := r.incentive_running
    monthly_costs := r.monthly_costs
    monthly_base_charges := r.monthly_base_charges
    monthly_energy_charges := r.monthly_energy_charges }

/-- The `comparison_results` list built by the `for _, plan in
available_plans.iterrows()` loop of `get_comparison`, before sorting:
rows of matching contract type, each run through `calculate_cost`,
failures skipped (`except: continue`). -/
def collectResults (master_df : List PlanRow) (contract_type : String) (capacity : ℚ)
    (monthly_usage : List ℚ) (power_factor : Option ℚ) : List ComparisonEntry :=
  (master_df.filter (fun row => row.contract_type == contract_type)).filterMap
    (fun plan =>
      match calculate_cost master_df plan.company_name contract_type capacity
          monthly_usage power_factor with
      | Except.ok r => some (toEntry plan.company_name r)
      | Except.error _ => none)

/-- The comparison key of `comparison_results.sort(key=...)`. -/
def netLE (a b : ComparisonEntry) : Bool :=
  decide (a.net_annual_cost ≤ b.net_annual_cost)

/-- Embedding of `ElectricityCalculator.get_comparison`: all plans of the requested
contract type, failures skipped, sorted ascending by `net_annual_cost`
with the stable sort of Python (modelled by the stable `List.mergeSort`). -/
def get_comparison (master_df : List PlanRow) (contract_type : String) (capacity : ℚ)
    (monthly_usage : List ℚ) (power_factor : Option ℚ) : List ComparisonEntry :=
  (collectResults master_df contract_type capacity monthly_usage power_factor).mergeSort
    netLE

/-- The dictionary returned by `calculate_plan_costs`. -/
structure PlanCostResult where
  proposed_cost : ℤ
  reduction_amount : ℤ
  reduction_pct : ℚ
  avg_reduction : ℤ
deriving DecidableEq, Repr

/-- Embedding of `ElectricityCalculator.calculate_plan_costs` (simplified mode). -/
def calculate_plan_costs (total_actual_cost plan_rate : ℚ) (calc_months : ℤ) :
    PlanCostResult :=
  let proposed_cost := pyint (total_actual_cost * plan_rate)
  let reduction_amount := pyint (total_actual_cost - (proposed_cost : ℚ))
  let reduction_pct :=
    if 0 < total_actual_cost then ((reduction_amount : ℚ) / total_actual_cost) * 100 else 0
  let avg_reduction :=
    if 0 < calc_months then pyint ((reduction_amount : ℚ) / (calc_months : ℚ)) else 0
  { proposed_cost := proposed_cost
    reduction_amount := reduction_amount
    reduction_pct := reduction_pct
    avg_reduction := avg_reduction }

/-- One entry of the `billing_items` list: `{"name": ..., "val": ...}`. -/
structure BillingItem where
  name : String
  val : ℚ
deriving DecidableEq, Repr

/-- One row appended by `calculate_item_breakdown`; the integers are the
values the source wraps in currency formatting strings. -/
structure BreakdownRow where
  item_name : String
  current_total : ℤ
  proposed_total : ℤ
  difference : ℤ
deriving DecidableEq, Repr

/-- The row built for one billing item inside `calculate_item_breakdown`. -/
def breakdownRow (base_monthly_cost total_actual_cost plan_rate : ℚ)
    (item : BillingItem) : BreakdownRow :=
  let item_total_current :=
    if 0 < base_monthly_cost then pyint (item.val / base_monthly_cost * total_actual_cost)
    else 0
  let item_total_new := pyint ((item_total_current : ℚ) * plan_rate)
  { item_name := item.name
    current_total := item_total_current
    proposed_total := item_total_new
    difference := item_total_current - item_total_new }

/-- Embedding of `ElectricityCalculator.calculate_item_breakdown`: the `rows` accumulator
loop over `billing_items`. -/
def calculate_item_breakdown (billing_items : List BillingItem)
    (base_monthly_cost total_actual_cost plan_rate : ℚ) : List BreakdownRow :=
  billing_items.foldl
    (fun rows item => rows ++ [breakdownRow base_monthly_cost total_actual_cost plan_rate item])
    []

/-- On nonnegative arguments, `pyint` agrees with the floor. -/
theorem pyint_of_nonneg {q : ℚ} (h : 0 ≤ q) : pyint q = ⌊q⌋ := if_pos h

/-- Evaluation rule for `pyint` at a nonnegative argument. -/
theorem pyint_eq_of_nonneg {q : ℚ} {z : ℤ} (h0 : 0 ≤ q) (hz : (z : ℚ) ≤ q)
    (hz1 : q < z + 1) : pyint q = z := by
  rw [pyint, if_pos h0]
  exact Int.floor_eq_iff.mpr ⟨hz, hz1⟩

/-- Truncation `pyint` is the identity on integers. -/
theorem pyint_intCast (z : ℤ) : pyint (z : ℚ) = z := by
  rcases le_or_lt 0 (z : ℚ) with h | h
  · rw [pyint, if_pos h, Int.floor_intCast]
  · rw [pyint, if_neg (not_le.mpr h), ← Int.cast_neg, Int.floor_intCast, neg_neg]

/-- On a High Voltage contract with a power factor supplied, the month loop
succeeds and produces the three per-month charge lists. -/
theorem monthLoop_highVoltage_some (b e c p : ℚ) (u : List ℚ) :
    monthLoop "High Voltage" b e c (some p) u =
      Except.ok (u.map (fun _ => b * c * (185 - p) / 100), u.map (fun x => e * x),
        u.map (fun x => b * c * (185 - p) / 100 + e * x)) := by
  induction u with
  | nil => rfl
  | cons x rest ih =>
    rw [monthLoop, ih]
    rfl

/-- On a contract type other than High Voltage the month loop succeeds
(whatever the power factor argument is). -/
theorem monthLoop_other (t : String) (ht : t ≠ "High Voltage") (b e c : ℚ)
    (pf : Option ℚ) (u : List ℚ) :
    monthLoop t b e c pf u =
      Except.ok (u.map (fun _ => b * c), u.map (fun x => e * x),
        u.map (fun x => b * c + e * x)) := by
  induction u with
  | nil => rfl
  | cons x rest ih =>
    rw [monthLoop.eq_def]
    simp only [if_neg ht, ih]
    rfl

/-- The month loop fails exactly on a High Voltage contract with no power
factor and at least one month of usage, and then with `missingPowerFactor`. -/
theorem monthLoop_error_iff (t : String) (b e c : ℚ) (pf : Option ℚ) (u : List ℚ)
    (er : CalcError) :
    monthLoop t b e c pf u = Except.error er ↔
      (er = CalcError.missingPowerFactor ∧ t = "High Voltage" ∧ pf = none ∧ u ≠ []) := by
  induction u with
  | nil => simp [monthLoop]
  | cons x rest ih =>
    by_cases ht : t = "High Voltage"
    · subst ht
      cases pf with
      | none =>
        rw [show monthLoop "High Voltage" b e c none (x :: rest) =
          Except.error CalcError.missingPowerFactor from rfl]
        simp [eq_comm]
      | some p =>
        rw [monthLoop_highVoltage_some]
        simp
    · rw [monthLoop_other t ht]
      simp [ht]

/-- Closed form of `calculate_cost` when the lookup finds row `r` and the
contract is High Voltage with a power factor supplied. -/
theorem calculate_cost_highVoltage (master : List PlanRow) (c : String) (cap : ℚ)
    (u : List ℚ) (p : ℚ) (r : PlanRow)
    (hfind : master.find? (planPred c "High Voltage") = some r) :
    calculate_cost master c "High Voltage" cap u (some p) =
      Except.ok
        ⟨u.map (fun x => r.base_unit_price * cap * (185 - p) / 100 + r.energy_unit_price * x),
         (u.map (fun x => r.base_unit_price * cap * (185 - p) / 100 +
           r.energy_unit_price * x)).sum,
         u.map (fun _ => r.base_unit_price * cap * (185 - p) / 100),
         u.map (fun x => r.energy_unit_price * x),
         r.incentive_shot,
         r.incentive_running * 12,
         (u.map (fun x => r.base_unit_price * cap * (185 - p) / 100 +
           r.energy_unit_price * x)).sum - r.incentive_shot - r.incentive_running * 12⟩ := by
  simp only [calculate_cost, hfind, monthLoop_highVoltage_some]
  rfl

/-- Closed form of `calculate_cost` when the lookup finds row `r` and the
contract type is not High Voltage: no power-factor adjustment. -/
theorem calculate_cost_lowVoltage (master : List PlanRow) (c t : String) (cap : ℚ)
    (u : List ℚ) (pf : Option ℚ) (r : PlanRow) (ht : t ≠ "High Voltage")
    (hfind : master.find? (planPred c t) = some r) :
    calculate_cost master c t cap u pf =
      Except.ok
        ⟨u.map (fun x => r.base_unit_price * cap + r.energy_unit_price * x),
         (u.map (fun x => r.base_unit_price * cap + r.energy_unit_price * x)).sum,
         u.map (fun _ => r.base_unit_price * cap),
         u.map (fun x => r.energy_unit_price * x),
         r.incentive_shot,
         r.incentive_running * 12,
         (u.map (fun x => r.base_unit_price * cap + r.energy_unit_price * x)).sum -
           r.incentive_shot - r.incentive_running * 12⟩ := by
  simp only [calculate_cost, hfind, monthLoop_other t ht]
  rfl

/-- Lookup failure: `calculate_cost` reports a missing plan exactly when the catalog lookup
comes up empty. -/
theorem calculate_cost_planNotFound_iff (master : List PlanRow) (c t : String)
    (cap : ℚ) (u : List ℚ) (pf : Option ℚ) :
    calculate_cost master c t cap u pf = Except.error CalcError.planNotFound ↔
      master.find? (planPred c t) = none := by
  cases hf : master.find? (planPred c t) with
  | none => simp [calculate_cost, hf]
  | some r =>
    simp only [calculate_cost, hf]
    cases hm : monthLoop t r.base_unit_price r.energy_unit_price cap pf u with
    | ok charges => simp [hm, hf, exceptBind_ok]
    | error er =>
      have her := (monthLoop_error_iff t r.base_unit_price r.energy_unit_price cap
        pf u er).mp hm
      simp [hm, her.1, hf, exceptBind_error]

/-- On a High Voltage request with no power factor and a nonempty usage list,
`calculate_cost` always fails (with one of the two errors). -/
theorem calculate_cost_hv_none_fails (master : List PlanRow) (c : String) (cap : ℚ)
    (u : List ℚ) (hne : u ≠ []) :
    ∃ er, calculate_cost master c "High Voltage" cap u none = Except.error er := by
  cases hf : master.find? (planPred c "High Voltage") with
  | none => exact ⟨CalcError.planNotFound, by simp [calculate_cost, hf]⟩
  | some r =>
    refine ⟨CalcError.missingPowerFactor, ?_⟩
    simp only [calculate_cost, hf,
      (monthLoop_error_iff "High Voltage" r.base_unit_price r.energy_unit_price cap
        none u CalcError.missingPowerFactor).mpr ⟨rfl, rfl, rfl, hne⟩]
    rfl

/-- The month loop yields one entry per month of usage in each of its three
output lists. -/
theorem monthLoop_ok_lengths (t : String) (b e c : ℚ) (pf : Option ℚ) (u : List ℚ)
    (charges : List ℚ × List ℚ × List ℚ)
    (h : monthLoop t b e c pf u = Except.ok charges) :
    charges.1.length = u.length ∧ charges.2.1.length = u.length ∧
      charges.2.2.length = u.length := by
  by_cases ht : t = "High Voltage"
  · subst ht
    cases pf with
    | some p =>
      rw [monthLoop_highVoltage_some] at h
      cases h
      simp
    | none =>
      cases u with
      | nil =>
        cases hc : charges with
        | mk l1 l23 =>
          rw [hc] at h
          simp [monthLoop] at h
          obtain ⟨h1, h23⟩ := h
          simp [h1, ← h23]
      | cons x rest =>
        rw [show monthLoop "High Voltage" b e c none (x :: rest) =
          Except.error CalcError.missingPowerFactor from rfl] at h
        cases h
  · rw [monthLoop_other t ht] at h
    cases h
    simp

/-- C1: for the catalog row used by `calculate_cost`, each month gets base
charge `baseUnitPrice * capacity * (185 - powerFactorPct) / 100` on a High
Voltage contract and `baseUnitPrice * capacity` otherwise, energy charge
`energyUnitPrice * usage`, monthly cost base + energy; the annual cost is
the sum of the monthly costs, the running incentive is annualized times 12,
and the net annual cost subtracts both incentives; in particular with
`baseUnitPrice = 1000`, `capacity = 100` the High Voltage monthly base
charge is 100000 at power factor 85, 90000 at 95, and 110000 at 75. -/
theorem calculate_cost_spec :
    (∀ (master : List PlanRow) (c : String) (cap : ℚ) (u : List ℚ) (p : ℚ) (r : PlanRow),
      master.find? (planPred c "High Voltage") = some r →
      calculate_cost master c "High Voltage" cap u (some p) =
        Except.ok
          ⟨u.map (fun x => r.base_unit_price * cap * (185 - p) / 100 +
             r.energy_unit_price * x),
           (u.map (fun x => r.base_unit_price * cap * (185 - p) / 100 +
             r.energy_unit_price * x)).sum,
           u.map (fun _ => r.base_unit_price * cap * (185 - p) / 100),
           u.map (fun x => r.energy_unit_price * x),
           r.incentive_shot,
           r.incentive_running * 12,
           (u.map (fun x => r.base_unit_price * cap * (185 - p) / 100 +
             r.energy_unit_price * x)).sum - r.incentive_shot -
             r.incentive_running * 12⟩) ∧
    (∀ (master : List PlanRow) (c t : String) (cap : ℚ) (u : List ℚ) (pf : Option ℚ)
      (r : PlanRow), t ≠ "High Voltage" → master.find? (planPred c t) = some r →
      calculate_cost master c t cap u pf =
        Except.ok
          ⟨u.map (fun x => r.base_unit_price * cap + r.energy_unit_price * x),
           (u.map (fun x => r.base_unit_price * cap + r.energy_unit_price * x)).sum,
           u.map (fun _ => r.base_unit_price * cap),
           u.map (fun x => r.energy_unit_price * x),
           r.incentive_shot,
           r.incentive_running * 12,
           (u.map (fun x => r.base_unit_price * cap + r.energy_unit_price * x)).sum -
             r.incentive_shot - r.incentive_running * 12⟩) ∧
    calculate_cost [⟨"A", "High Voltage", 1000, 0, 0, 0⟩] "A" "High Voltage" 100 [0]
      (some 85) = Except.ok ⟨[100000], 100000, [100000], [0], 0, 0, 100000⟩ ∧
    calculate_cost [⟨"A", "High Voltage", 1000, 0, 0, 0⟩] "A" "High Voltage" 100 [0]
      (some 95) = Except.ok ⟨[90000], 90000, [90000], [0], 0, 0, 90000⟩ ∧
    calculate_cost [⟨"A", "High Voltage", 1000, 0, 0, 0⟩] "A" "High Voltage" 100 [0]
      (some 75) = Except.ok ⟨[110000], 110000, [110000], [0], 0, 0, 110000⟩ := by
  refine ⟨calculate_cost_highVoltage, calculate_cost_lowVoltage, ?_, ?_, ?_⟩ <;>
    rw [calculate_cost_highVoltage [⟨"A", "High Voltage", 1000, 0, 0, 0⟩] "A" 100 [0] _
      ⟨"A", "High Voltage", 1000, 0, 0, 0⟩ rfl] <;>
    norm_num

/-- Closed instance of `calculate_cost_spec`: a Low Voltage plan with
`baseUnitPrice = 10`, `capacity = 5`, usage `[6]`, energy price 2. -/
theorem calculate_cost_spec_witness :
    calculate_cost [⟨"B", "Low Voltage", 10, 2, 3, 4⟩] "B" "Low Voltage" 5 [6] none =
      Except.ok
        ⟨[(6 : ℚ)].map (fun x => 10 * 5 + 2 * x),
         ([(6 : ℚ)].map (fun x => 10 * 5 + 2 * x)).sum,
         [(6 : ℚ)].map (fun _ => 10 * 5),
         [(6 : ℚ)].map (fun x => 2 * x),
         3, 4 * 12,
         ([(6 : ℚ)].map (fun x => 10 * 5 + 2 * x)).sum - 3 - 4 * 12⟩ :=
  calculate_cost_spec.2.1 [⟨"B", "Low Voltage", 10, 2, 3, 4⟩] "B" "Low Voltage" 5 [6]
    none ⟨"B", "Low Voltage", 10, 2, 3, 4⟩ (by decide) rfl

/-- C5: for a catalog row of contract type High Voltage and a 12-month usage
list, `calculate_cost` with no power factor fails with the missing-parameter
error, and with a power factor supplied it never raises that error. -/
theorem calculate_cost_requires_power_factor :
    ∀ (master : List PlanRow) (row : PlanRow) (cap : ℚ) (u : List ℚ),
      row ∈ master → row.contract_type = "High Voltage" → u.length = 12 →
      calculate_cost master row.company_name "High Voltage" cap u none =
          Except.error CalcError.missingPowerFactor ∧
        ∀ p : ℚ,
          calculate_cost master row.company_name "High Voltage" cap u (some p) ≠
            Except.error CalcError.missingPowerFactor := by
  intro master row cap u hmem hct hlen
  have hne : u ≠ [] := by
    intro hnil
    rw [hnil] at hlen
    simp at hlen
  have hsome : (master.find? (planPred row.company_name "High Voltage")).isSome :=
    List.find?_isSome.mpr ⟨row, hmem, by simp [planPred, hct]⟩
  obtain ⟨r, hr⟩ := Option.isSome_iff_exists.mp hsome
  constructor
  · simp only [calculate_cost, hr,
      (monthLoop_error_iff "High Voltage" r.base_unit_price r.energy_unit_price cap
        none u CalcError.missingPowerFactor).mpr ⟨rfl, rfl, rfl, hne⟩, exceptBind_error]
  · intro p
    rw [calculate_cost_highVoltage master row.company_name cap u p r hr]
    simp

/-- Closed instance of `calculate_cost_requires_power_factor` on a
one-row High Voltage catalog and 12 months of usage. -/
theorem calculate_cost_requires_power_factor_witness :
    calculate_cost [⟨"A", "High Voltage", 1, 1, 0, 0⟩] "A" "High Voltage" 1
        [0, 0, 0, 0, 0, 0, 0, 0, 0, 0, 0, 0] none =
        Except.error CalcError.missingPowerFactor ∧
      calculate_cost [⟨"A", "High Voltage", 1, 1, 0, 0⟩] "A" "High Voltage" 1
        [0, 0, 0, 0, 0, 0, 0, 0, 0, 0, 0, 0] (some 85) ≠
        Except.error CalcError.missingPowerFactor :=
  ⟨(calculate_cost_requires_power_factor [⟨"A", "High Voltage", 1, 1, 0, 0⟩]
      ⟨"A", "High Voltage", 1, 1, 0, 0⟩ 1 [0, 0, 0, 0, 0, 0, 0, 0, 0, 0, 0, 0]
      (by simp) rfl rfl).1,
   (calculate_cost_requires_power_factor [⟨"A", "High Voltage", 1, 1, 0, 0⟩]
      ⟨"A", "High Voltage", 1, 1, 0, 0⟩ 1 [0, 0, 0, 0, 0, 0, 0, 0, 0, 0, 0, 0]
      (by simp) rfl rfl).2 85⟩

/-- C6: `calculate_cost` fails with the plan-not-found error exactly when no
catalog row matches `(companyName, contractType)`, and with duplicate keys
the computation depends only on the first matching row (first match wins). -/
theorem calculate_cost_planNotFound_first_match :
    (∀ (master : List PlanRow) (c t : String) (cap : ℚ) (u : List ℚ) (pf : Option ℚ),
      calculate_cost master c t cap u pf = Except.error CalcError.planNotFound ↔
        ∀ row ∈ master, ¬(row.company_name = c ∧ row.contract_type = t)) ∧
    (∀ (master : List PlanRow) (c t : String) (cap : ℚ) (u : List ℚ) (pf : Option ℚ)
      (r : PlanRow), master.find? (planPred c t) = some r →
      calculate_cost master c t cap u pf = calculate_cost [r] c t cap u pf) := by
  constructor
  · intro master c t cap u pf
    rw [calculate_cost_planNotFound_iff, List.find?_eq_none]
    constructor
    · intro h row hrow hmatch
      have hfalse := h row hrow
      simp [planPred, hmatch.1, hmatch.2] at hfalse
    · intro h row hrow
      simp only [planPred, Bool.and_eq_true, beq_iff_eq]
      intro hmatch
      exact h row hrow ⟨hmatch.1, hmatch.2⟩
  · intro master c t cap u pf r hr
    have hpred : planPred c t r = true := List.find?_some hr
    have hsingle : List.find? (planPred c t) [r] = some r := by
      simp [List.find?, hpred]
    simp only [calculate_cost, hr, hsingle]

/-- Closed instance of `calculate_cost_planNotFound_first_match`: an empty
catalog fails with plan-not-found, and on a catalog with a duplicate key the
result equals the one computed from the first matching row alone. -/
theorem calculate_cost_planNotFound_first_match_witness :
    calculate_cost [] "X" "T" 1 [1] none = Except.error CalcError.planNotFound ∧
      calculate_cost [⟨"X", "T", 1, 1, 0, 0⟩, ⟨"X", "T", 2, 2, 0, 0⟩] "X" "T" 1 [1]
          none =
        calculate_cost [⟨"X", "T", 1, 1, 0, 0⟩] "X" "T" 1 [1] none :=
  ⟨(calculate_cost_planNotFound_first_match.1 [] "X" "T" 1 [1] none).mpr (by simp),
   calculate_cost_planNotFound_first_match.2 [⟨"X", "T", 1, 1, 0, 0⟩, ⟨"X", "T", 2, 2, 0, 0⟩]
     "X" "T" 1 [1] none ⟨"X", "T", 1, 1, 0, 0⟩ rfl⟩

/-- C10: a successful `calculate_cost` returns per-month lists exactly as
long as the given usage list, and on a High Voltage plan with no power
factor but an empty usage list the call returns normally with annual cost 0
and net annual cost `-(incentive_shot + 12 * incentive_running)` — the
missing-power-factor check runs only inside the per-month loop. -/
theorem calculate_cost_lengths_empty_usage :
    (∀ (master : List PlanRow) (c t : String) (cap : ℚ) (u : List ℚ) (pf : Option ℚ)
      (res : CostResult), calculate_cost master c t cap u pf = Except.ok res →
      res.monthly_costs.length = u.length ∧
        res.monthly_base_charges.length = u.length ∧
        res.monthly_energy_charges.length = u.length) ∧
    (∀ (master : List PlanRow) (c : String) (cap : ℚ) (r : PlanRow),
      master.find? (planPred c "High Voltage") = some r →
      calculate_cost master c "High Voltage" cap [] none =
        Except.ok ⟨[], 0, [], [], r.incentive_shot, r.incentive_running * 12,
          -(r.incentive_shot + r.incentive_running * 12)⟩) := by
  constructor
  · intro master c t cap u pf res h
    cases hf : master.find? (planPred c t) with
    | none => simp [calculate_cost, hf] at h
    | some r =>
      simp only [calculate_cost, hf] at h
      cases hm : monthLoop t r.base_unit_price r.energy_unit_price cap pf u with
      | error er => simp [hm, exceptBind_error] at h
      | ok charges =>
        rw [hm, exceptBind_ok] at h
        obtain ⟨hl1, hl2, hl3⟩ := monthLoop_ok_lengths t r.base_unit_price
          r.energy_unit_price cap pf u charges hm
        cases h
        exact ⟨hl3, hl1, hl2⟩
  · intro master c cap r hr
    simp only [calculate_cost, hr,
      show monthLoop "High Voltage" r.base_unit_price r.energy_unit_price cap none [] =
        Except.ok ([], [], []) from rfl, exceptBind_ok]
    simp only [Except.ok.injEq, CostResult.mk.injEq, List.sum_nil, and_true, true_and]
    ring

/-- Closed instance of `calculate_cost_lengths_empty_usage`: length facts on
a one-month Low Voltage computation and the empty-usage High Voltage call. -/
theorem calculate_cost_lengths_empty_usage_witness :
    ((⟨[7], 7, [5], [2], 0, 0, 7⟩ : CostResult).monthly_costs.length =
          [(1 : ℚ)].length ∧
        (⟨[7], 7, [5], [2], 0, 0, 7⟩ : CostResult).monthly_base_charges.length =
          [(1 : ℚ)].length ∧
        (⟨[7], 7, [5], [2], 0, 0, 7⟩ : CostResult).monthly_energy_charges.length =
          [(1 : ℚ)].length) ∧
      calculate_cost [⟨"A", "High Voltage", 1, 1, 5, 2⟩] "A" "High Voltage" 3 [] none =
        Except.ok ⟨[], 0, [], [], 5, 2 * 12, -(5 + 2 * 12)⟩ :=
  ⟨calculate_cost_lengths_empty_usage.1 [⟨"B", "Low Voltage", 5, 2, 0, 0⟩] "B"
      "Low Voltage" 1 [1] none ⟨[7], 7, [5], [2], 0, 0, 7⟩
      (by rw [calculate_cost_lowVoltage [⟨"B", "Low Voltage", 5, 2, 0, 0⟩] "B"
            "Low Voltage" 1 [1] none ⟨"B", "Low Voltage", 5, 2, 0, 0⟩ (by decide) rfl]
          norm_num),
   calculate_cost_lengths_empty_usage.2 [⟨"A", "High Voltage", 1, 1, 5, 2⟩] "A" 3
     ⟨"A", "High Voltage", 1, 1, 5, 2⟩ rfl⟩

/-- C7: with a discount rate in `(0, 1]` and a nonnegative total cost, the
proposed cost never exceeds the total and the reduction is nonnegative. -/
theorem calculate_plan_costs_bounds :
    ∀ (t r : ℚ) (m : ℤ), 0 ≤ t → 0 < r → r ≤ 1 →
      ((calculate_plan_costs t r m).proposed_cost : ℚ) ≤ t ∧
        0 ≤ (calculate_plan_costs t r m).reduction_amount := by
  intro t r m ht hr hr1
  have htr : 0 ≤ t * r := mul_nonneg ht hr.le
  have h1 : ((pyint (t * r)) : ℚ) ≤ t * r := by
    rw [pyint_of_nonneg htr]
    exact Int.floor_le _
  have h2 : ((pyint (t * r)) : ℚ) ≤ t := h1.trans (mul_le_of_le_one_right ht hr1)
  have h3 : 0 ≤ t - ((pyint (t * r)) : ℚ) := sub_nonneg.mpr h2
  refine ⟨h2, ?_⟩
  show 0 ≤ pyint (t - ((pyint (t * r)) : ℚ))
  rw [pyint_of_nonneg h3]
  exact Int.floor_nonneg.mpr h3

/-- Closed instance of `calculate_plan_costs_bounds` at `(1000, 3/4, 2)`. -/
theorem calculate_plan_costs_bounds_witness :
    ((calculate_plan_costs 1000 (3/4) 2).proposed_cost : ℚ) ≤ 1000 ∧
      0 ≤ (calculate_plan_costs 1000 (3/4) 2).reduction_amount :=
  calculate_plan_costs_bounds 1000 (3/4) 2 (by norm_num) (by norm_num) (by norm_num)

/-- C2 counterexample: at `totalActualCost = 3/2`, `discountRate = 1`,
`monthsCount = 2` — inside the claimed domain — the code computes
`reduction_amount = int(3/2 - 1) = 0`, not `totalActualCost - proposedCost
= 1/2` as the claim states. -/
theorem calculate_plan_costs_reduction_counterexample :
    (0 : ℚ) ≤ 3/2 ∧ (0 : ℚ) < 1 ∧ (1 : ℚ) ≤ 1 ∧
      ((calculate_plan_costs (3/2) 1 2).reduction_amount : ℚ) ≠
        3/2 - ((calculate_plan_costs (3/2) 1 2).proposed_cost : ℚ) := by
  have hp : (calculate_plan_costs (3/2) 1 2).proposed_cost = 1 := by
    show pyint ((3/2 : ℚ) * 1) = 1
    apply pyint_eq_of_nonneg <;> norm_num
  have hp2 : pyint ((3/2 : ℚ) * 1) = 1 := hp
  have hra : (calculate_plan_costs (3/2) 1 2).reduction_amount = 0 := by
    show pyint ((3/2 : ℚ) - ((pyint ((3/2 : ℚ) * 1)) : ℚ)) = 0
    rw [hp2]
    apply pyint_eq_of_nonneg <;> norm_num
  refine ⟨by norm_num, by norm_num, le_refl 1, ?_⟩
  rw [hp, hra]
  norm_num

/-- C2 (amended): for `totalActualCost ≥ 0` and `discountRate ∈ (0, 1]`,
`proposedCost = ⌊totalActualCost * discountRate⌋`,
`reductionAmount = ⌊totalActualCost - proposedCost⌋` (the claimed plain
`totalActualCost - proposedCost` holds only when `totalActualCost` is an
integer), `reductionPct = reductionAmount / totalActualCost * 100` when
`totalActualCost > 0` and `0` otherwise, `avgMonthlyReduction =
⌊reductionAmount / monthsCount⌋` when `monthsCount > 0` and `0` otherwise;
inputs `(1000, 3/4, 2)` yield `(750, 250, 25, 125)`. -/
theorem calculate_plan_costs_spec :
    ∀ (t r : ℚ) (m : ℤ), 0 ≤ t → 0 < r → r ≤ 1 →
      (calculate_plan_costs t r m).proposed_cost = ⌊t * r⌋ ∧
        (calculate_plan_costs t r m).reduction_amount =
          ⌊t - (((calculate_plan_costs t r m).proposed_cost) : ℚ)⌋ ∧
        (calculate_plan_costs t r m).reduction_pct =
          (if 0 < t then (((calculate_plan_costs t r m).reduction_amount) : ℚ) / t * 100
            else 0) ∧
        (calculate_plan_costs t r m).avg_reduction =
          (if 0 < m then ⌊(((calculate_plan_costs t r m).reduction_amount) : ℚ) / (m : ℚ)⌋
            else 0) ∧
        calculate_plan_costs 1000 (3/4) 2 = ⟨750, 250, 25, 125⟩ := by
  intro t r m ht hr hr1
  have htr : 0 ≤ t * r := mul_nonneg ht hr.le
  have h1 : ((pyint (t * r)) : ℚ) ≤ t * r := by
    rw [pyint_of_nonneg htr]
    exact Int.floor_le _
  have h2 : ((pyint (t * r)) : ℚ) ≤ t := h1.trans (mul_le_of_le_one_right ht hr1)
  have h3 : 0 ≤ t - ((pyint (t * r)) : ℚ) := sub_nonneg.mpr h2
  have hred : (calculate_plan_costs t r m).reduction_amount =
      pyint (t - ((pyint (t * r)) : ℚ)) := rfl
  have hred0 : 0 ≤ (calculate_plan_costs t r m).reduction_amount := by
    rw [hred, pyint_of_nonneg h3]
    exact Int.floor_nonneg.mpr h3
  refine ⟨pyint_of_nonneg htr, ?_, rfl, ?_, ?_⟩
  · rw [hred, pyint_of_nonneg h3]
    rfl
  · show (if 0 < m then pyint ((((calculate_plan_costs t r m).reduction_amount) : ℚ) /
        (m : ℚ)) else 0) =
      (if 0 < m then ⌊(((calculate_plan_costs t r m).reduction_amount) : ℚ) / (m : ℚ)⌋
        else 0)
    split_ifs with hm
    · apply pyint_of_nonneg
      apply div_nonneg
      · exact_mod_cast hred0
      · exact_mod_cast hm.le
    · rfl
  · have e1 : pyint ((1000 : ℚ) * (3/4)) = 750 := by
      apply pyint_eq_of_nonneg <;> norm_num
    have e2 : pyint ((1000 : ℚ) - ((750 : ℤ) : ℚ)) = 250 := by
      apply pyint_eq_of_nonneg <;> norm_num
    have e3 : pyint (((250 : ℤ) : ℚ) / ((2 : ℤ) : ℚ)) = 125 := by
      apply pyint_eq_of_nonneg <;> norm_num
    simp only [calculate_plan_costs, e1, e2, e3]
    norm_num

/-- Closed instance of `calculate_plan_costs_spec`: the example row
`(1000, 3/4, 2) ↦ (750, 250, 25, 125)`. -/
theorem calculate_plan_costs_spec_witness :
    calculate_plan_costs 1000 (3/4) 2 = ⟨750, 250, 25, 125⟩ :=
  (calculate_plan_costs_spec 1000 (3/4) 2 (by norm_num) (by norm_num)
    (by norm_num)).2.2.2.2

/-- The `rows.append` accumulator loop is the map over the items. -/
theorem foldl_push_eq_map {α β : Type} (g : α → β) (l : List α) (acc : List β) :
    l.foldl (fun rows item => rows ++ [g item]) acc = acc ++ l.map g := by
  induction l generalizing acc with
  | nil => simp
  | cons x rest ih => simp [ih]

/-- Row structure: `calculate_item_breakdown` builds exactly one row per billing item, in
input order. -/
theorem calculate_item_breakdown_eq_map (items : List BillingItem)
    (base total rate : ℚ) :
    calculate_item_breakdown items base total rate =
      items.map (breakdownRow base total rate) := by
  rw [calculate_item_breakdown, foldl_push_eq_map]
  rfl

/-- C8 counterexample: with a negative item amount `-1`, reference-month
total `2` and period total `1`, the code computes
`current_total = int(-1/2) = 0`, while the claimed
`floor(item.amount / baseMonthlyCost * totalActualCost)` is `-1`. -/
theorem calculate_item_breakdown_floor_counterexample :
    (0 : ℚ) < 2 ∧
      (calculate_item_breakdown [⟨"x", -1⟩] 2 1 (1/2)).map
          (fun row => row.current_total) ≠
        [⌊(-1 : ℚ) / 2 * 1⌋] := by
  have hcur : pyint ((-1 : ℚ) / 2 * 1) = 0 := by
    rw [pyint, if_neg (by norm_num)]
    norm_num [Int.floor_eq_iff]
  have hfl : ⌊(-1 : ℚ) / 2 * 1⌋ = -1 := by
    rw [Int.floor_eq_iff]
    constructor <;> norm_num
  refine ⟨by norm_num, ?_⟩
  rw [calculate_item_breakdown_eq_map, hfl]
  simp only [List.map_map, List.map_cons, List.map_nil, Function.comp]
  rw [show (breakdownRow 2 1 (1/2) ⟨"x", -1⟩).current_total =
    (if (0 : ℚ) < 2 then pyint ((-1 : ℚ) / 2 * 1) else 0) from rfl]
  rw [if_pos (by norm_num : (0 : ℚ) < 2), hcur]
  simp

/-- C8 (amended): `calculate_item_breakdown` returns one row per item in
input order, with `currentTotal = int(item.amount / baseMonthlyCost *
totalActualCost)` (truncation toward zero, which is the floor whenever the
operand is nonnegative) when `baseMonthlyCost > 0` and `0` otherwise,
`proposedTotal = int(currentTotal * discountRate)`, and
`difference = currentTotal - proposedTotal`. -/
theorem calculate_item_breakdown_spec :
    ∀ (items : List BillingItem) (base total rate : ℚ),
      calculate_item_breakdown items base total rate =
        items.map (fun item =>
          ⟨item.name,
           (if 0 < base then pyint (item.val / base * total) else 0),
           pyint ((((if 0 < base then pyint (item.val / base * total) else 0) : ℤ) : ℚ) *
             rate),
           (if 0 < base then pyint (item.val / base * total) else 0) -
             pyint ((((if 0 < base then pyint (item.val / base * total) else 0) : ℤ) : ℚ) *
               rate)⟩) := by
  intro items base total rate
  rw [calculate_item_breakdown_eq_map]
  rfl

/-- Sum of the per-item actual shares: pulling the common `/ base * total`
factor out of the list sum. -/
theorem sum_map_div_mul (l : List BillingItem) (b t : ℚ) :
    (l.map (fun i => i.val / b * t)).sum = (l.map BillingItem.val).sum / b * t := by
  induction l with
  | nil => simp
  | cons x rest ih =>
    simp only [List.map_cons, List.sum_cons, ih]
    ring

/-- Summing the truncations of nonnegative rationals loses at most one unit
per element. -/
theorem sum_pyint_bounds (l : List ℚ) (h : ∀ x ∈ l, 0 ≤ x) :
    (((l.map pyint).sum : ℤ) : ℚ) ≤ l.sum ∧
      l.sum - l.length ≤ (((l.map pyint).sum : ℤ) : ℚ) := by
  induction l with
  | nil => simp
  | cons x rest ih =>
    have hx := h x (List.mem_cons_self x rest)
    obtain ⟨ih1, ih2⟩ := ih (fun y hy => h y (List.mem_cons_of_mem x hy))
    have hfx : ((pyint x : ℤ) : ℚ) ≤ x := by
      rw [pyint_of_nonneg hx]
      exact Int.floor_le x
    have hfx2 : x - 1 < ((pyint x : ℤ) : ℚ) := by
      rw [pyint_of_nonneg hx]
      exact Int.sub_one_lt_floor x
    simp only [List.map_cons, List.sum_cons, List.length_cons]
    push_cast at ih1 ih2 ⊢
    constructor <;> linarith

/-- C9 counterexample: items `[-1/2, -1/2, 2]` sum to the reference-month
total `1 > 0`, yet the truncated current totals sum to `2`, exceeding the
period total `1` — the claimed upper bound fails for negative amounts. -/
theorem calculate_item_breakdown_roundtrip_counterexample :
    ([⟨"a", -1/2⟩, ⟨"b", -1/2⟩, ⟨"c", 2⟩] : List BillingItem) ≠ [] ∧
      (([⟨"a", -1/2⟩, ⟨"b", -1/2⟩, ⟨"c", 2⟩] : List BillingItem).map
        BillingItem.val).sum = 1 ∧
      (0 : ℚ) < 1 ∧
      ¬ (((((calculate_item_breakdown [⟨"a", -1/2⟩, ⟨"b", -1/2⟩, ⟨"c", 2⟩] 1 1
            (1/2)).map (fun row => row.current_total)).sum : ℤ) : ℚ) ≤ 1) := by
  have h1 : pyint ((-1/2 : ℚ) / 1 * 1) = 0 := by
    rw [pyint, if_neg (by norm_num)]
    norm_num [Int.floor_eq_iff]
  have h2 : pyint ((2 : ℚ) / 1 * 1) = 2 := by
    apply pyint_eq_of_nonneg <;> norm_num
  refine ⟨by simp, by norm_num, by norm_num, ?_⟩
  rw [calculate_item_breakdown_eq_map]
  simp only [List.map_map, List.map_cons, List.map_nil, Function.comp, List.sum_cons,
    List.sum_nil]
  rw [show (breakdownRow 1 1 (1/2) ⟨"a", -1/2⟩).current_total =
      (if (0 : ℚ) < 1 then pyint ((-1/2 : ℚ) / 1 * 1) else 0) from rfl,
    show (breakdownRow 1 1 (1/2) ⟨"b", -1/2⟩).current_total =
      (if (0 : ℚ) < 1 then pyint ((-1/2 : ℚ) / 1 * 1) else 0) from rfl,
    show (breakdownRow 1 1 (1/2) ⟨"c", 2⟩).current_total =
      (if (0 : ℚ) < 1 then pyint ((2 : ℚ) / 1 * 1) else 0) from rfl,
    if_pos (by norm_num : (0 : ℚ) < 1), h1, h2]
  norm_num

/-- C9 (amended): when all item amounts are nonnegative, the period total is
nonnegative and the reference-month total equals the sum of the item
amounts (and is positive), the summed current totals land within the
integer-rounding band `[totalActualCost - #items, totalActualCost]`. -/
theorem calculate_item_breakdown_roundtrip :
    ∀ (items : List BillingItem) (base total rate : ℚ),
      items ≠ [] → (∀ item ∈ items, 0 ≤ item.val) → 0 ≤ total →
      base = (items.map BillingItem.val).sum → 0 < base →
      ((((calculate_item_breakdown items base total rate).map
          (fun row => row.current_total)).sum : ℤ) : ℚ) ≤ total ∧
        total - items.length ≤
          ((((calculate_item_breakdown items base total rate).map
            (fun row => row.current_total)).sum : ℤ) : ℚ) := by
  intro items base total rate hne hvals htot hbase hpos
  have hmap : (calculate_item_breakdown items base total rate).map
      (fun row => row.current_total) =
      (items.map (fun i => i.val / base * total)).map pyint := by
    rw [calculate_item_breakdown_eq_map, List.map_map, List.map_map]
    apply List.map_congr_left
    intro i hi
    show (breakdownRow base total rate i).current_total = pyint (i.val / base * total)
    rw [show (breakdownRow base total rate i).current_total =
      (if 0 < base then pyint (i.val / base * total) else 0) from rfl, if_pos hpos]
  have hx : ∀ x ∈ items.map (fun i => i.val / base * total), 0 ≤ x := by
    intro x hxm
    obtain ⟨i, hi, rfl⟩ := List.mem_map.mp hxm
    exact mul_nonneg (div_nonneg (hvals i hi) hpos.le) htot
  obtain ⟨hle, hge⟩ := sum_pyint_bounds _ hx
  have hsum : (items.map (fun i => i.val / base * total)).sum = total := by
    rw [sum_map_div_mul, ← hbase, div_self (ne_of_gt hpos), one_mul]
  rw [hmap]
  rw [hsum] at hle hge
  simp only [List.length_map] at hge
  exact ⟨hle, hge⟩

/-- Closed instance of `calculate_item_breakdown_roundtrip` on a single
item of amount 1. -/
theorem calculate_item_breakdown_roundtrip_witness :
    ((((calculate_item_breakdown [⟨"a", 1⟩] 1 1 1).map
        (fun row => row.current_total)).sum : ℤ) : ℚ) ≤ 1 ∧
      1 - ([⟨"a", (1 : ℚ)⟩] : List BillingItem).length ≤
        ((((calculate_item_breakdown [⟨"a", 1⟩] 1 1 1).map
          (fun row => row.current_total)).sum : ℤ) : ℚ) :=
  calculate_item_breakdown_roundtrip [⟨"a", 1⟩] 1 1 1 (by simp)
    (by
      intro i hi
      rw [List.mem_singleton] at hi
      subst hi
      norm_num)
    (by norm_num) (by simp) (by norm_num)

/-- The sort key `netLE` is transitive. -/
theorem netLE_trans : ∀ a b c : ComparisonEntry,
    netLE a b = true → netLE b c = true → netLE a c = true := by
  intro a b c hab hbc
  simp only [netLE, decide_eq_true_eq] at hab hbc ⊢
  exact le_trans hab hbc

/-- The sort key `netLE` is total. -/
theorem netLE_total : ∀ a b : ComparisonEntry, (netLE a b || netLE b a) = true := by
  intro a b
  simp only [netLE, Bool.or_eq_true, decide_eq_true_eq]
  exact le_total _ _

/-- C3: `get_comparison` is sorted ascending by `net_annual_cost`, is a
permutation of the pre-sort pass over the catalog (`collectResults`, which
visits catalog rows in order), and equal-key entries keep exactly the
relative order they have in that catalog-order pass: the sort is stable. -/
theorem get_comparison_sorted_stable :
    ∀ (master : List PlanRow) (t : String) (cap : ℚ) (u : List ℚ) (pf : Option ℚ),
      (get_comparison master t cap u pf).Pairwise
          (fun a b => a.net_annual_cost ≤ b.net_annual_cost) ∧
        (get_comparison master t cap u pf).Perm
          (collectResults master t cap u pf) ∧
        ∀ v : ℚ,
          (get_comparison master t cap u pf).filter
              (fun e => e.net_annual_cost == v) =
            (collectResults master t cap u pf).filter
              (fun e => e.net_annual_cost == v) := by
  intro master t cap u pf
  refine ⟨?_, List.mergeSort_perm _ _, ?_⟩
  · exact (List.sorted_mergeSort netLE_trans netLE_total _).imp
      (fun h => by simpa [netLE] using h)
  · intro v
    have hmem : ∀ e ∈ (collectResults master t cap u pf).filter
        (fun e => e.net_annual_cost == v), e.net_annual_cost = v := by
      intro e he
      have h2 := (List.mem_filter.mp he).2
      simpa using h2
    have hpw : ((collectResults master t cap u pf).filter
        (fun e => e.net_annual_cost == v)).Pairwise (fun a b => netLE a b = true) := by
      apply List.pairwise_of_forall_mem_list
      intro a ha b hb
      simp only [netLE, decide_eq_true_eq, hmem a ha, hmem b hb, le_refl]
    have hsub : ((collectResults master t cap u pf).filter
          (fun e => e.net_annual_cost == v)).Sublist
        ((collectResults master t cap u pf).mergeSort netLE) :=
      List.sublist_mergeSort netLE_trans netLE_total hpw (List.filter_sublist _)
    have hsub2 : ((collectResults master t cap u pf).filter
          (fun e => e.net_annual_cost == v)).Sublist
        (((collectResults master t cap u pf).mergeSort netLE).filter
          (fun e => e.net_annual_cost == v)) := by
      have h3 := hsub.filter (fun e => e.net_annual_cost == v)
      rwa [List.filter_eq_self.mpr (fun a ha => (List.mem_filter.mp ha).2)] at h3
    have hperm : (((collectResults master t cap u pf).mergeSort netLE).filter
          (fun e => e.net_annual_cost == v)).Perm
        ((collectResults master t cap u pf).filter (fun e => e.net_annual_cost == v)) :=
      (List.mergeSort_perm _ netLE).filter _
    exact (hsub2.eq_of_length hperm.length_eq.symm).symm

/-- Inversion for the missing-power-factor failure of `calculate_cost`. -/
theorem calculate_cost_missingPowerFactor_inv (master : List PlanRow) (c t : String)
    (cap : ℚ) (u : List ℚ) (pf : Option ℚ)
    (h : calculate_cost master c t cap u pf =
      Except.error CalcError.missingPowerFactor) :
    t = "High Voltage" ∧ pf = none ∧ u ≠ [] := by
  cases hf : master.find? (planPred c t) with
  | none => simp [calculate_cost, hf] at h
  | some r =>
    simp only [calculate_cost, hf] at h
    cases hm : monthLoop t r.base_unit_price r.energy_unit_price cap pf u with
    | ok ch =>
      rw [hm, exceptBind_ok] at h
      simp at h
    | error er2 =>
      obtain ⟨_, ht, hpf, hu⟩ := (monthLoop_error_iff t r.base_unit_price
        r.energy_unit_price cap pf u er2).mp hm
      exact ⟨ht, hpf, hu⟩

/-- C4: partial-failure semantics of `get_comparison` — if `calculate_cost`
fails for the key of some catalog row, that row contributes nothing and the
returned comparison (count and order included) is the same as if the row
were absent; the aggregate operation itself never raises. -/
theorem get_comparison_skips_failing_row :
    ∀ (m1 m2 : List PlanRow) (bad : PlanRow) (t : String) (cap : ℚ) (u : List ℚ)
      (pf : Option ℚ) (er : CalcError),
      calculate_cost (m1 ++ bad :: m2) bad.company_name t cap u pf =
        Except.error er →
      get_comparison (m1 ++ bad :: m2) t cap u pf =
        get_comparison (m1 ++ m2) t cap u pf := by
  intro m1 m2 bad t cap u pf er h
  cases er with
  | planNotFound =>
    have hnone := (calculate_cost_planNotFound_iff (m1 ++ bad :: m2) bad.company_name
      t cap u pf).mp h
    have hbadfalse : planPred bad.company_name t bad = false := by
      have := List.find?_eq_none.mp hnone bad
        (List.mem_append_right m1 (List.mem_cons_self bad m2))
      simpa using this
    have hbadct : (bad.contract_type == t) = false := by
      by_contra hcontra
      rw [planPred] at hbadfalse
      simp only [beq_self_eq_true, Bool.true_and] at hbadfalse
      exact hcontra hbadfalse
    have hfind_eq : ∀ c : String,
        List.find? (planPred c t) (m1 ++ bad :: m2) =
          List.find? (planPred c t) (m1 ++ m2) := by
      intro c
      rw [List.find?_append, List.find?_append]
      have hbadpred : planPred c t bad = false := by
        rw [planPred, hbadct, Bool.and_false]
      rw [List.find?_cons, hbadpred]
    have hcc : ∀ c : String,
        calculate_cost (m1 ++ bad :: m2) c t cap u pf =
          calculate_cost (m1 ++ m2) c t cap u pf := by
      intro c
      simp only [calculate_cost, hfind_eq c]
    have hfilter : (m1 ++ bad :: m2).filter (fun row => row.contract_type == t) =
        (m1 ++ m2).filter (fun row => row.contract_type == t) := by
      rw [List.filter_append, List.filter_append,
        List.filter_cons_of_neg (by simp [hbadct])]
    have hcoll : collectResults (m1 ++ bad :: m2) t cap u pf =
        collectResults (m1 ++ m2) t cap u pf := by
      rw [collectResults, collectResults, hfilter]
      apply List.filterMap_congr
      intro plan hplan
      rw [hcc plan.company_name]
    rw [get_comparison, get_comparison, hcoll]
  | missingPowerFactor =>
    obtain ⟨ht, hpf, hu⟩ := calculate_cost_missingPowerFactor_inv (m1 ++ bad :: m2)
      bad.company_name t cap u pf h
    subst ht
    subst hpf
    have hnil : ∀ master : List PlanRow,
        collectResults master "High Voltage" cap u none = [] := by
      intro master
      rw [collectResults]
      apply List.filterMap_eq_nil_iff.mpr
      intro plan hplan
      obtain ⟨er2, her2⟩ := calculate_cost_hv_none_fails master plan.company_name cap
        u hu
      simp [her2]
    rw [get_comparison, get_comparison, hnil, hnil]

/-- Closed instance of `get_comparison_skips_failing_row`: a High Voltage
row whose key is absent for the requested Low Voltage comparison is skipped
without changing the result computed from the remaining row. -/
theorem get_comparison_skips_failing_row_witness :
    get_comparison [⟨"A", "High Voltage", 1, 1, 0, 0⟩, ⟨"B", "Low Voltage", 1, 1, 0, 0⟩]
        "Low Voltage" 1 [1] none =
      get_comparison [⟨"B", "Low Voltage", 1, 1, 0, 0⟩] "Low Voltage" 1 [1] none :=
  get_comparison_skips_failing_row [] [⟨"B", "Low Voltage", 1, 1, 0, 0⟩]
    ⟨"A", "High Voltage", 1, 1, 0, 0⟩ "Low Voltage" 1 [1] none
    CalcError.planNotFound rfl
